import Mathlib

/-!
# Verification of the `smc-integrator` Marketing Cloud client

Shallow embedding of the two wrapper classes of the repository:
`src/marketing_cloud/api.py` (class `MarketingCloud`, namespace `MC` below)
and `src/smc/api.py` (class `MarketingCloud`, namespace `SMC` below).

Python strings are modelled as `List Char` (`Str`); Python dicts coming
from JSON are modelled as association lists `List (Str × Str)` looked up
by first match; a `KeyError` on a missing key is modelled by `Option` /
explicit error results.  HTTP transports are modelled as function-valued
environments supplied to the operations; every network interaction an
operation performs is recorded in an explicit event trace.
-/

/-- Python strings, as lists of characters. -/
abbrev Str := List Char

/-- The literal segment `auth` (dot-separated component of the base URL). -/
def authSeg : Str := "auth".toList

/-- The replacement segment `rest`. -/
def restSeg : Str := "rest".toList

/-- The token-endpoint path suffix `/v2/token`. -/
def tokenPath : Str := "/v2/token".toList

/-- The JSON key `access_token` expected in the token-endpoint response. -/
def accessTokenKey : Str := "access_token".toList

/-- The JSON key `next` looked up in the links mapping of a response. -/
def nextKey : Str := "next".toList

/-- The value `Not Authorized` compared against the message field of a
response. -/
def notAuthorizedVal : Str := "Not Authorized".toList

/-- The dot character separating URL segments. -/
def dotChar : Char := Char.ofNat 46

/-- The slash character separating URL path components. -/
def slashChar : Char := Char.ofNat 47

/-- First-match lookup in an association list, modelling Python dict access
(`m[k]` succeeding iff the key is present). -/
def lookupStr (m : List (Str × Str)) (k : Str) : Option Str :=
  (m.find? fun p => decide (p.1 = k)).map Prod.snd

/-- Membership test `k in m` on a Python dict modelled as an association list. -/
def hasKeyStr (m : List (Str × Str)) (k : Str) : Bool :=
  m.any fun p => decide (p.1 = k)

/-- Drop the leading run of copies of `c`, one side of Python `str.strip`. -/
def stripLead (c : Char) : Str → Str
  | [] => []
  | x :: xs => if x = c then stripLead c xs else x :: xs

/-- Python-style strip of `c` from both ends: drop the leading run of `c`,
then the trailing run of `c` (the strip method called with one slash). -/
def stripBoth (c : Char) (s : Str) : Str :=
  ((stripLead c (stripLead c s).reverse)).reverse

/-- Python join of a segment list on the dot separator. -/
def joinDots (l : List Str) : Str :=
  List.intercalate [dotChar] l

/-- Python split of a string on the dot separator. -/
def splitDots (s : Str) : List Str :=
  List.splitOn dotChar s

/-- Network events observable from the constructor and the token
operations of the client. -/
inductive NetEvent where
  | post (url : Str) (body : List (Str × Str))
  | getReq (url : Str)
deriving DecidableEq, Repr

namespace MC

/-- State of `marketing_cloud.api.MarketingCloud`: the instance fields set by
`__init__` (src/marketing_cloud/api.py lines 27-32). -/
structure State where
  table : Option Str
  baseURL : Str
  authURL : Str
  auth : List (Str × Str)
  data_extensions : List Str
  token : Str
deriving DecidableEq, Repr

/-- Construction-time derivation of the data-API base URL
(src/marketing_cloud/api.py line 28): split the given URL on dots, replace
each segment equal to `auth` by `rest`, and join the segments back with
dots. -/
def deriveRestURL (baseURL : Str) : Str :=
  joinDots ((splitDots baseURL).map fun s => if s = authSeg then restSeg else s)

/-- Model of `_get_token` (lines 52-57): POST the token path under the auth
URL with the stored credentials as body, then index the JSON response with
`access_token`.  The transport `post` maps (url, body) to the parsed JSON
response; a missing `access_token` key is a Python KeyError, modelled as
`Except.error`. -/
def _get_token (post : Str → List (Str × Str) → List (Str × Str))
    (authURL : Str) (auth : List (Str × Str)) : Except Unit Str :=
  match lookupStr (post (authURL ++ tokenPath) auth) accessTokenKey with
  | some t => Except.ok t
  | none => Except.error ()

/-- Model of the constructor (lines 27-32): store the table, derive the
base URL by the
`auth`→`rest` segment substitution, keep the original URL as `_authURL`,
store credentials and data extensions, then perform the blocking token
fetch.  Returns the constructed state (or the propagated token failure)
together with the trace of network events issued. -/
def initClient (post : Str → List (Str × Str) → List (Str × Str))
    (credentials : List (Str × Str)) (baseURL : Str)
    (data_extensions : List Str) (table : Option Str) :
    Except Unit State × List NetEvent :=
  let ev := [NetEvent.post (baseURL ++ tokenPath) credentials]
  match _get_token post baseURL credentials with
  | Except.ok t =>
      (Except.ok { table := table, baseURL := deriveRestURL baseURL,
                   authURL := baseURL, auth := credentials,
                   data_extensions := data_extensions, token := t }, ev)
  | Except.error e => (Except.error e, ev)

/-- Model of `set_credentials` (lines 43-44): replace the stored
credentials, touching nothing else and issuing no network request. -/
def set_credentials (st : State) (credentials : List (Str × Str)) : State :=
  { st with auth := credentials }

/-- Model of `set_baseURL` (lines 46-47): replace the base URL directly. -/
def set_baseURL (st : State) (baseURL : Str) : State :=
  { st with baseURL := baseURL }

/-- Model of `refresh_token` (lines 49-50): store a freshly fetched token. -/
def refresh_token (post : Str → List (Str × Str) → List (Str × Str))
    (st : State) : Except Unit State :=
  match _get_token post st.authURL st.auth with
  | Except.ok t => Except.ok { st with token := t }
  | Except.error e => Except.error e

/-- Model of `_generate_endpoint_url` (lines 59-65): the base URL, one
slash, and the endpoint with its leading and trailing slashes stripped. -/
def _generate_endpoint_url (st : State) (endpoint : Str) : Str :=
  st.baseURL ++ [slashChar] ++ stripBoth slashChar endpoint

/-- The request headers built by `get` (lines 77-80). -/
def headers (st : State) : List (Str × Str) :=
  [("Authorization".toList, "Bearer ".toList ++ st.token),
   ("Content-Type".toList, "application/json".toList)]

/-- The URL `get` (lines 82-85) actually requests: if
`endpoint[:len(self._baseURL)] != self._baseURL` the endpoint is joined to
the base URL, otherwise it is used verbatim. -/
def get_url (st : State) (endpoint : Str) : Str :=
  if endpoint.take st.baseURL.length = st.baseURL then endpoint
  else _generate_endpoint_url st endpoint

end MC

namespace SMC

/-- State of `smc.api.MarketingCloud`: the instance fields set by `__init__`
(src/smc/api.py lines 22-25). -/
structure State where
  baseURL : Str
  authURL : Str
  auth : List (Str × Str)
  token : Str
deriving DecidableEq, Repr

/-- The segment substitution of src/smc/api.py line 22 swapping `auth` for
`rest`, translated from the textually identical expression of that file. -/
def deriveRestURL (baseURL : Str) : Str :=
  joinDots ((splitDots baseURL).map fun s => if s = authSeg then restSeg else s)

/-- Model of `_get_token` (src/smc/api.py lines 40-45), identical body to
the marketing_cloud variant. -/
def _get_token (post : Str → List (Str × Str) → List (Str × Str))
    (authURL : Str) (auth : List (Str × Str)) : Except Unit Str :=
  match lookupStr (post (authURL ++ tokenPath) auth) accessTokenKey with
  | some t => Except.ok t
  | none => Except.error ()

/-- Model of the constructor (src/smc/api.py lines 22-25): same derivation
and token fetch, without the table and data-extension parameters. -/
def initClient (post : Str → List (Str × Str) → List (Str × Str))
    (auth_data : List (Str × Str)) (baseURL : Str) :
    Except Unit State × List NetEvent :=
  let ev := [NetEvent.post (baseURL ++ tokenPath) auth_data]
  match _get_token post baseURL auth_data with
  | Except.ok t =>
      (Except.ok { baseURL := deriveRestURL baseURL, authURL := baseURL,
                   auth := auth_data, token := t }, ev)
  | Except.error e => (Except.error e, ev)

/-- Model of `set_auth_data` (src/smc/api.py lines 31-32). -/
def set_auth_data (st : State) (auth_data : List (Str × Str)) : State :=
  { st with auth := auth_data }

/-- Model of `set_baseURL` (src/smc/api.py lines 34-35). -/
def set_baseURL (st : State) (baseURL : Str) : State :=
  { st with baseURL := baseURL }

/-- Model of `refresh_token` (src/smc/api.py lines 37-38). -/
def refresh_token (post : Str → List (Str × Str) → List (Str × Str))
    (st : State) : Except Unit State :=
  match _get_token post st.authURL st.auth with
  | Except.ok t => Except.ok { st with token := t }
  | Except.error e => Except.error e

/-- Model of `_generate_endpoint_url` (src/smc/api.py lines 47-53). -/
def _generate_endpoint_url (st : State) (endpoint : Str) : Str :=
  st.baseURL ++ [slashChar] ++ stripBoth slashChar endpoint

/-- The request headers built by `get` (src/smc/api.py lines 65-68). -/
def headers (st : State) : List (Str × Str) :=
  [("Authorization".toList, "Bearer ".toList ++ st.token),
   ("Content-Type".toList, "application/json".toList)]

/-- The URL `get` (src/smc/api.py lines 70-73) actually requests. -/
def get_url (st : State) (endpoint : Str) : Str :=
  if endpoint.take st.baseURL.length = st.baseURL then endpoint
  else _generate_endpoint_url st endpoint

/-- Projection of the marketing_cloud client state onto the fields the smc
variant shares with it. -/
def ofMC (st : MC.State) : State :=
  { baseURL := st.baseURL, authURL := st.authURL,
    auth := st.auth, token := st.token }

end SMC

namespace MC

/-- A parsed rowset-page response, as accessed by the pagination code
(src/marketing_cloud/api.py lines 88-110).  Each JSON key the code indexes
is optional, matching the possibility of a Python `KeyError`:
`items` (line 103/109), `links` (line 105), top-level `next` (line 108) and
`message` (lines 88-89).  Items are left abstract in `α`. -/
structure PageResponse (α : Type) where
  items : Option (List α)
  links : Option (List (Str × Str))
  next : Option Str
  message : Option Str

/-- Model of `_has_token_expired` (lines 88-89): true exactly when the
response carries a message field equal to `Not Authorized`. -/
def _has_token_expired (r : PageResponse α) : Bool :=
  match r.message with
  | some m => decide (m = notAuthorizedVal)
  | none => false

/-- The endpoint string `_get_customobject` (lines 91-92) passes to `get`:
the rowset path for the given object name and page number. -/
def customobjectEndpoint (object : Str) (page : Nat) : Str :=
  "data/v1/customobjectdata/key/".toList ++ object
    ++ "/rowset?$page=".toList ++ (Nat.repr page).toList

/-- Events observable from a run of `customobject_generator`: a token
refresh (the POST issued by `refresh_token`), a page fetch (the GET issued
through `get` for the given endpoint argument), a `yield` of a whole item
list (line 103), and a `yield` of a single item (line 110). -/
inductive GEvent (α : Type) where
  | refresh
  | fetch (endpoint : Str)
  | yieldPage (l : List α)
  | yieldItem (a : α)
deriving DecidableEq, Repr

/-- How a fueled run of the generator ended: the generator function
returned (`finished`), the fuel bound on loop iterations was exhausted
while the loops were still running (`fuelOut`), or an uncaught Python
`KeyError` was raised by a missing JSON key (`keyError`). -/
inductive GenResult where
  | finished
  | fuelOut
  | keyError
deriving DecidableEq, Repr

/-- Model of the inner while loop guarded by `_has_token_expired` (lines
106-108): refresh the token, then re-fetch the URL held under the
top-level `next` key of the response.  Here `fetch`
maps the endpoint argument of `self.get` to the (parsed) response.
Returns the event trace together with the final `response` value, fuel
exhaustion, or the `KeyError` raised when the `next` key is absent.
Fuel bounds the number of loop iterations. -/
def innerLoop (fetch : Str → PageResponse α) :
    Nat → PageResponse α → List (GEvent α) × (Option (PageResponse α) × GenResult)
  | 0, r =>
    if _has_token_expired r then ([], (none, GenResult.fuelOut))
    else ([], (some r, GenResult.finished))
  | fuel + 1, r =>
    if _has_token_expired r then
      match r.next with
      | none => ([GEvent.refresh], (none, GenResult.keyError))
      | some u =>
        let rec_ := innerLoop fetch fuel (fetch u)
        (GEvent.refresh :: GEvent.fetch u :: rec_.1, rec_.2)
    else ([], (some r, GenResult.finished))

/-- Model of the outer while loop (lines 105-110), iterating while the
links mapping of the response contains the key `next`: run the inner
refresh loop, then yield each element of the items list of the response,
and re-test the condition on the (possibly reassigned) response.  Fuel
bounds the number of outer iterations; each inner-loop run receives
`ifuel`. -/
def outerLoop (fetch : Str → PageResponse α) (ifuel : Nat) :
    Nat → PageResponse α → List (GEvent α) × GenResult
  | 0, r =>
    match r.links with
    | none => ([], GenResult.keyError)
    | some lks =>
      if hasKeyStr lks nextKey then ([], GenResult.fuelOut)
      else ([], GenResult.finished)
  | ofuel + 1, r =>
    match r.links with
    | none => ([], GenResult.keyError)
    | some lks =>
      if hasKeyStr lks nextKey then
        match innerLoop fetch ifuel r with
        | (tr1, (none, res)) => (tr1, res)
        | (tr1, (some r2, _)) =>
          match r2.items with
          | none => (tr1, GenResult.keyError)
          | some its =>
            let rec_ := outerLoop fetch ifuel ofuel r2
            (tr1 ++ its.map GEvent.yieldItem ++ rec_.1, rec_.2)
      else ([], GenResult.finished)

/-- Model of `customobject_generator` (lines 94-110): refresh the token,
fetch page 1 of the rowset endpoint through `_get_customobject`, yield the
whole items list of the response as a single value (line 103), then run
the outer pagination loop.  Here `fetch` maps the endpoint argument of
`get` to the parsed response; the run returns the full event trace and how
it ended. -/
def customobject_generator (fetch : Str → PageResponse α) (object : Str)
    (ifuel ofuel : Nat) : List (GEvent α) × GenResult :=
  let ep := customobjectEndpoint object 1
  let r := fetch ep
  match r.items with
  | none => ([GEvent.refresh, GEvent.fetch ep], GenResult.keyError)
  | some its =>
    let rec_ := outerLoop fetch ifuel ofuel r
    (GEvent.refresh :: GEvent.fetch ep :: GEvent.yieldPage its :: rec_.1,
     rec_.2)

/-- The number of fetch events in a generator trace (one per HTTP GET the
generator issued). -/
def fetchCount : List (GEvent α) → Nat
  | [] => 0
  | GEvent.fetch _ :: tr => fetchCount tr + 1
  | _ :: tr => fetchCount tr

/-- The subsequence of yield events of a generator trace, in order: the
values the generator produced to its consumer. -/
def yieldEvents : List (GEvent α) → List (GEvent α)
  | [] => []
  | GEvent.yieldPage l :: tr => GEvent.yieldPage l :: yieldEvents tr
  | GEvent.yieldItem a :: tr => GEvent.yieldItem a :: yieldEvents tr
  | _ :: tr => yieldEvents tr

/-- Whether event `e` may legally follow `prev` in a trace where every
fetch must come right after a refresh: a fetch event is acceptable only
immediately after a refresh event, every other event always is. -/
def stepOkAfter : GEvent α → Option (GEvent α) → Bool
  | GEvent.fetch _, some GEvent.refresh => true
  | GEvent.fetch _, _ => false
  | _, _ => true

/-- Predicate `fetchPrecededByRefresh prev tr`: holds when, scanning `tr` with `prev`
as the event immediately before its head, every fetch event is immediately
preceded by a refresh event. -/
def fetchPrecededByRefresh : Option (GEvent α) → List (GEvent α) → Bool
  | _, [] => true
  | prev, e :: tr => stepOkAfter e prev && fetchPrecededByRefresh (some e) tr

end MC

/-! ## Helper lemmas about Python-style strip -/

lemma stripLead_idem (c : Char) (s : Str) :
    stripLead c (stripLead c s) = stripLead c s := by
  induction s with
  | nil => rfl
  | cons x xs ih => by_cases h : x = c <;> simp [stripLead, h, ih]

lemma stripLead_length_le (c : Char) (s : Str) :
    (stripLead c s).length ≤ s.length := by
  induction s with
  | nil => simp [stripLead]
  | cons x xs ih =>
    by_cases h : x = c
    · simp [stripLead, h]
      omega
    · simp [stripLead, h]

lemma stripLead_eq_drop (c : Char) (s : Str) : ∃ m, stripLead c s = s.drop m := by
  induction s with
  | nil => exact ⟨0, rfl⟩
  | cons x xs ih =>
    by_cases h : x = c
    · obtain ⟨m, hm⟩ := ih
      exact ⟨m + 1, by simp [stripLead, h, hm]⟩
    · exact ⟨0, by simp [stripLead, h]⟩

lemma stripLead_take (c : Char) (t : Str) (h : stripLead c t = t) (k : Nat) :
    stripLead c (t.take k) = t.take k := by
  cases t with
  | nil => simp [stripLead]
  | cons x xs =>
    have hx : x ≠ c := by
      intro he
      have h1 : stripLead c (x :: xs) = stripLead c xs := by simp [stripLead, he]
      have h2 : (stripLead c xs).length ≤ xs.length := stripLead_length_le c xs
      rw [h1] at h
      have := congrArg List.length h
      simp at this
      omega
    cases k with
    | zero => simp [stripLead]
    | succ k => simp [List.take_succ_cons, stripLead, hx]

lemma stripBoth_eq_take (c : Char) (s : Str) :
    ∃ k, stripBoth c s = (stripLead c s).take k := by
  obtain ⟨m, hm⟩ := stripLead_eq_drop c (stripLead c s).reverse
  refine ⟨(stripLead c s).length - m, ?_⟩
  rw [stripBoth, hm, List.reverse_drop]
  simp

lemma stripBoth_noLead (c : Char) (s : Str) :
    stripLead c (stripBoth c s) = stripBoth c s := by
  obtain ⟨k, hk⟩ := stripBoth_eq_take c s
  rw [hk]
  exact stripLead_take c _ (stripLead_idem c s) k

lemma stripBoth_noTrail (c : Char) (s : Str) :
    stripLead c (stripBoth c s).reverse = (stripBoth c s).reverse := by
  rw [stripBoth, List.reverse_reverse]
  exact stripLead_idem c _

lemma stripBoth_of_clean (c : Char) (s : Str) (h1 : stripLead c s = s)
    (h2 : stripLead c s.reverse = s.reverse) : stripBoth c s = s := by
  rw [stripBoth, h1, h2, List.reverse_reverse]

/-! ## Claims C8 and C9: URL construction in `get` -/

/-- C8: for every endpoint that does not start with the configured base URL, `get`
requests the base URL, a slash, and the path, where the path is the endpoint with its leading
and trailing slashes stripped, so exactly one slash stands at the join
point (the joined path neither starts nor ends with a slash, and a path
that is already clean of edge slashes is joined verbatim). -/
theorem c8_get_relative_join (st : MC.State) (e : Str)
    (h : e.take st.baseURL.length ≠ st.baseURL) :
    MC.get_url st e = st.baseURL ++ [slashChar] ++ stripBoth slashChar e
    ∧ stripLead slashChar (stripBoth slashChar e) = stripBoth slashChar e
    ∧ stripLead slashChar (stripBoth slashChar e).reverse
        = (stripBoth slashChar e).reverse
    ∧ (stripLead slashChar e = e → stripLead slashChar e.reverse = e.reverse →
        MC.get_url st e = st.baseURL ++ [slashChar] ++ e) := by
  refine ⟨?_, stripBoth_noLead slashChar e, stripBoth_noTrail slashChar e, ?_⟩
  · simp [MC.get_url, MC._generate_endpoint_url, h]
  · intro h1 h2
    simp [MC.get_url, MC._generate_endpoint_url, h, stripBoth_of_clean slashChar e h1 h2]

/-- A concrete client state used to instantiate the URL-construction
claims. -/
def stateW : MC.State :=
  { table := none
    baseURL := "https://mc.rest.example.com".toList
    authURL := "https://mc.auth.example.com".toList
    auth := []
    data_extensions := []
    token := "tok123".toList }

/-- Closed instance of `c8_get_relative_join` at a concrete state and a
concrete relative path carrying both a leading and a trailing slash. -/
theorem c8_get_relative_join_witness :
    (("/relative/path/".toList).take stateW.baseURL.length ≠ stateW.baseURL)
    ∧ (MC.get_url stateW ("/relative/path/".toList)
        = stateW.baseURL ++ [slashChar] ++ stripBoth slashChar ("/relative/path/".toList)
      ∧ stripLead slashChar (stripBoth slashChar ("/relative/path/".toList))
          = stripBoth slashChar ("/relative/path/".toList)
      ∧ stripLead slashChar (stripBoth slashChar ("/relative/path/".toList)).reverse
          = (stripBoth slashChar ("/relative/path/".toList)).reverse
      ∧ (stripLead slashChar ("/relative/path/".toList) = "/relative/path/".toList →
          stripLead slashChar ("/relative/path/".toList).reverse
            = ("/relative/path/".toList).reverse →
          MC.get_url stateW ("/relative/path/".toList)
            = stateW.baseURL ++ [slashChar] ++ "/relative/path/".toList)) :=
  ⟨by decide, c8_get_relative_join stateW ("/relative/path/".toList) (by decide)⟩

/-- C9: an endpoint that already starts with the configured base URL is
requested verbatim by `get`, with no re-joining, in both variants of the
class. -/
theorem c9_get_passthrough (st : MC.State) (e : Str)
    (h : e.take st.baseURL.length = st.baseURL) :
    MC.get_url st e = e ∧ SMC.get_url (SMC.ofMC st) e = e := by
  constructor
  · simp [MC.get_url, h]
  · simp [SMC.get_url, SMC.ofMC, h]

/-- Closed instance of `c9_get_passthrough`: a fully-qualified URL starting
with the configured base URL passes through unmodified. -/
theorem c9_get_passthrough_witness :
    (("https://mc.rest.example.com/data/v1".toList).take stateW.baseURL.length
        = stateW.baseURL)
    ∧ (MC.get_url stateW ("https://mc.rest.example.com/data/v1".toList)
        = "https://mc.rest.example.com/data/v1".toList
      ∧ SMC.get_url (SMC.ofMC stateW) ("https://mc.rest.example.com/data/v1".toList)
          = "https://mc.rest.example.com/data/v1".toList) :=
  ⟨by decide,
   c9_get_passthrough stateW ("https://mc.rest.example.com/data/v1".toList) (by decide)⟩

/-! ## Claim C6: missing `access_token` fails construction -/

/-- C6: when the response of the token endpoint lacks the `access_token` field,
construction of either variant of the client fails with the propagated
authentication error, and the only network event issued is the token POST
itself — in particular no data GET precedes the failure. -/
theorem c6_missing_token_fails
    (post : Str → List (Str × Str) → List (Str × Str))
    (creds : List (Str × Str)) (u : Str) (de : List Str) (table : Option Str)
    (h : lookupStr (post (u ++ tokenPath) creds) accessTokenKey = none) :
    MC.initClient post creds u de table
        = (Except.error (), [NetEvent.post (u ++ tokenPath) creds])
    ∧ SMC.initClient post creds u
        = (Except.error (), [NetEvent.post (u ++ tokenPath) creds]) := by
  constructor
  · simp [MC.initClient, MC._get_token, h]
  · simp [SMC.initClient, SMC._get_token, h]

/-- A token-endpoint transport whose response never carries
`access_token`. -/
def postNoToken (_u : Str) (_body : List (Str × Str)) : List (Str × Str) :=
  [("error".toList, "invalid_client".toList)]

/-- Closed instance of `c6_missing_token_fails` at a concrete transport
whose token response has no `access_token` field. -/
theorem c6_missing_token_fails_witness :
    (lookupStr (postNoToken (("https://mc.auth.example.com".toList) ++ tokenPath) [])
        accessTokenKey = none)
    ∧ (MC.initClient postNoToken [] ("https://mc.auth.example.com".toList) [] none
        = (Except.error (),
           [NetEvent.post (("https://mc.auth.example.com".toList) ++ tokenPath) []])
      ∧ SMC.initClient postNoToken [] ("https://mc.auth.example.com".toList)
          = (Except.error (),
             [NetEvent.post (("https://mc.auth.example.com".toList) ++ tokenPath) []])) :=
  ⟨by decide,
   c6_missing_token_fails postNoToken [] ("https://mc.auth.example.com".toList) [] none
     (by decide)⟩

/-! ## Claim C7: `set_credentials` does not touch the token -/

/-- C7: replacing the stored credentials replaces only the `_auth` field —
the held token, base URL and auth URL are unchanged and no re-authentication
happens — and the token changes exactly when `refresh_token` is explicitly
called, at which point it becomes the token fetched with the new
credentials.  Stated for both variants of the class. -/
theorem c7_set_credentials_frame (st : MC.State) (creds : List (Str × Str))
    (post : Str → List (Str × Str) → List (Str × Str)) (t : Str)
    (h : MC._get_token post st.authURL creds = Except.ok t) :
    (MC.set_credentials st creds).token = st.token
    ∧ (MC.set_credentials st creds).auth = creds
    ∧ (MC.set_credentials st creds).baseURL = st.baseURL
    ∧ (MC.set_credentials st creds).authURL = st.authURL
    ∧ (SMC.set_auth_data (SMC.ofMC st) creds).token = st.token
    ∧ MC.refresh_token post (MC.set_credentials st creds)
        = Except.ok { st with auth := creds, token := t } := by
  refine ⟨rfl, rfl, rfl, rfl, rfl, ?_⟩
  simp [MC.refresh_token, MC.set_credentials, h]

/-- A token-endpoint transport answering every POST with a fixed
`access_token`. -/
def postFixedToken (_u : Str) (_body : List (Str × Str)) : List (Str × Str) :=
  [(accessTokenKey, "newtok".toList)]

/-- Closed instance of `c7_set_credentials_frame` at a concrete state,
fresh credentials and a concrete token transport. -/
theorem c7_set_credentials_frame_witness :
    (MC._get_token postFixedToken stateW.authURL [("client_id".toList, "c2".toList)]
        = Except.ok ("newtok".toList))
    ∧ ((MC.set_credentials stateW [("client_id".toList, "c2".toList)]).token = stateW.token
      ∧ (MC.set_credentials stateW [("client_id".toList, "c2".toList)]).auth
          = [("client_id".toList, "c2".toList)]
      ∧ (MC.set_credentials stateW [("client_id".toList, "c2".toList)]).baseURL = stateW.baseURL
      ∧ (MC.set_credentials stateW [("client_id".toList, "c2".toList)]).authURL = stateW.authURL
      ∧ (SMC.set_auth_data (SMC.ofMC stateW) [("client_id".toList, "c2".toList)]).token
          = stateW.token
      ∧ MC.refresh_token postFixedToken
            (MC.set_credentials stateW [("client_id".toList, "c2".toList)])
          = Except.ok { stateW with auth := [("client_id".toList, "c2".toList)], token := "newtok".toList }) :=
  ⟨by rfl,
   c7_set_credentials_frame stateW [("client_id".toList, "c2".toList)] postFixedToken
     ("newtok".toList) (by rfl)⟩

/-! ## Claim C10: the two class variants agree on their shared operations -/

/-- C10: over the operations the two files share — the construction-time
`auth`→`rest` URL derivation and token fetch, `set_baseURL`,
`refresh_token`, `_get_token`, `_generate_endpoint_url`, the `get` URL
choice and headers, and credential replacement — the `smc` variant and the
`marketing_cloud` variant compute identical results on identical inputs;
the smc state is the projection of the marketing_cloud state that forgets
the extra table and data-extension fields. -/
theorem c10_variants_equivalent
    (post : Str → List (Str × Str) → List (Str × Str))
    (creds : List (Str × Str)) (u e : Str) (de : List Str)
    (table : Option Str) (st : MC.State) :
    SMC.deriveRestURL u = MC.deriveRestURL u
    ∧ SMC._get_token post u creds = MC._get_token post u creds
    ∧ SMC.initClient post creds u
        = ((MC.initClient post creds u de table).1.map SMC.ofMC,
           (MC.initClient post creds u de table).2)
    ∧ SMC.set_auth_data (SMC.ofMC st) creds = SMC.ofMC (MC.set_credentials st creds)
    ∧ SMC.set_baseURL (SMC.ofMC st) u = SMC.ofMC (MC.set_baseURL st u)
    ∧ SMC.refresh_token post (SMC.ofMC st) = (MC.refresh_token post st).map SMC.ofMC
    ∧ SMC._generate_endpoint_url (SMC.ofMC st) e = MC._generate_endpoint_url st e
    ∧ SMC.get_url (SMC.ofMC st) e = MC.get_url st e
    ∧ SMC.headers (SMC.ofMC st) = MC.headers st := by
  refine ⟨rfl, rfl, ?_, rfl, rfl, ?_, rfl, ?_, rfl⟩
  · cases h : lookupStr (post (u ++ tokenPath) creds) accessTokenKey with
    | none =>
      simp [SMC.initClient, MC.initClient, SMC._get_token, MC._get_token, h, Except.map]
    | some t =>
      simp [SMC.initClient, MC.initClient, SMC._get_token, MC._get_token, h, SMC.ofMC,
            Except.map, SMC.deriveRestURL, MC.deriveRestURL]
  · cases h : lookupStr (post (st.authURL ++ tokenPath) st.auth) accessTokenKey with
    | none =>
      simp [SMC.refresh_token, MC.refresh_token, SMC._get_token, MC._get_token, SMC.ofMC, h,
            Except.map]
    | some t =>
      simp [SMC.refresh_token, MC.refresh_token, SMC._get_token, MC._get_token, SMC.ofMC, h,
            Except.map]
  · by_cases h : e.take st.baseURL.length = st.baseURL
    · simp [SMC.get_url, MC.get_url, SMC.ofMC, h]
    · simp [SMC.get_url, MC.get_url, SMC.ofMC, SMC._generate_endpoint_url,
            MC._generate_endpoint_url, h]

/-! ## Claim C5: construction-time `auth` → `rest` segment substitution -/

lemma count_one_getElem?_unique (l : List Str) (a : Str) :
    ∀ i j : Nat, l.count a = 1 → l[i]? = some a → l[j]? = some a → i = j := by
  induction l with
  | nil =>
    intro i j _ hi _
    simp at hi
  | cons x xs ih =>
    intro i j hc hi hj
    rw [List.count_cons] at hc
    match i, j with
    | 0, 0 => rfl
    | 0, j + 1 =>
      simp only [List.getElem?_cons_zero, Option.some.injEq] at hi
      subst hi
      simp at hc
      have hmem : x ∈ xs :=
        List.getElem?_mem (by simpa using hj)
      exact absurd hmem (List.count_eq_zero.mp (by omega))
    | i + 1, 0 =>
      simp only [List.getElem?_cons_zero, Option.some.injEq] at hj
      subst hj
      simp at hc
      have hmem : x ∈ xs :=
        List.getElem?_mem (by simpa using hi)
      exact absurd hmem (List.count_eq_zero.mp (by omega))
    | i + 1, j + 1 =>
      simp only [List.getElem?_cons_succ] at hi hj
      by_cases hx : x = a
      · subst hx
        simp at hc
        have hmem : x ∈ xs := List.getElem?_mem hi
        exact absurd hmem (List.count_eq_zero.mp (by omega))
      · have hb : (x == a) = false := beq_eq_false_iff_ne.mpr hx
        rw [hb] at hc
        simp at hc
        have := ih i j (by omega) hi hj
        omega

lemma map_replace_unique_occurrence (segs : List Str) (i : Nat)
    (h1 : segs[i]? = some authSeg) (h2 : segs.count authSeg = 1) :
    segs.map (fun s => if s = authSeg then restSeg else s) = segs.set i restSeg := by
  apply List.ext_getElem?
  intro n
  rw [List.getElem?_map]
  by_cases hn : n = i
  · subst hn
    have hlt : n < segs.length := (List.getElem?_eq_some.mp h1).1
    rw [h1, List.getElem?_set_self (by exact hlt)]
    simp
  · rw [List.getElem?_set_ne (fun he => hn he.symm)]
    cases hv : segs[n]? with
    | none => simp
    | some v =>
      have hne : v ≠ authSeg := fun he =>
        hn (count_one_getElem?_unique segs authSeg n i h2 (he ▸ hv) h1)
      simp [hne]

/-- C5: when the dot-split of the base URL carries the segment `auth` at
position `i` and at no other position, successful construction stores as
the data-API base URL the join of the same segment list with exactly
position `i` replaced by `rest` (every other segment unchanged), and
retains the given URL unmodified as the auth URL. -/
theorem c5_auth_rest_derivation (u : Str) (i : Nat)
    (post : Str → List (Str × Str) → List (Str × Str))
    (creds : List (Str × Str)) (de : List Str) (table : Option Str)
    (st : MC.State) (ev : List NetEvent)
    (h1 : (splitDots u)[i]? = some authSeg)
    (h2 : (splitDots u).count authSeg = 1)
    (h3 : MC.initClient post creds u de table = (Except.ok st, ev)) :
    st.baseURL = joinDots ((splitDots u).set i restSeg) ∧ st.authURL = u := by
  have hb : MC.deriveRestURL u = joinDots ((splitDots u).set i restSeg) := by
    rw [MC.deriveRestURL, map_replace_unique_occurrence (splitDots u) i h1 h2]
  unfold MC.initClient at h3
  cases hg : MC._get_token post u creds with
  | ok t =>
    rw [hg] at h3
    simp only [Prod.mk.injEq, Except.ok.injEq] at h3
    obtain ⟨hst, _⟩ := h3
    rw [← hst]
    exact ⟨hb, rfl⟩
  | error e =>
    rw [hg] at h3
    simp at h3

/-- The client state produced by constructing against
`https://mc.auth.example.com` with `postFixedToken`: the derived base URL
swaps the `auth` segment for `rest`. -/
def c5state : MC.State :=
  { table := none
    baseURL := "https://mc.rest.example.com".toList
    authURL := "https://mc.auth.example.com".toList
    auth := []
    data_extensions := []
    token := "newtok".toList }

/-- Closed instance of `c5_auth_rest_derivation` at a concrete URL whose
dot-split carries `auth` exactly once, at position 1. -/
theorem c5_auth_rest_derivation_witness :
    ((splitDots ("https://mc.auth.example.com".toList))[1]? = some authSeg)
    ∧ ((splitDots ("https://mc.auth.example.com".toList)).count authSeg = 1)
    ∧ (MC.initClient postFixedToken [] ("https://mc.auth.example.com".toList) [] none
        = (Except.ok c5state,
           [NetEvent.post (("https://mc.auth.example.com".toList) ++ tokenPath) []]))
    ∧ (c5state.baseURL
          = joinDots ((splitDots ("https://mc.auth.example.com".toList)).set 1 restSeg)
      ∧ c5state.authURL = "https://mc.auth.example.com".toList) :=
  ⟨by decide, by decide, by rfl,
   c5_auth_rest_derivation ("https://mc.auth.example.com".toList) 1 postFixedToken [] [] none
     c5state ([NetEvent.post (("https://mc.auth.example.com".toList) ++ tokenPath) []])
     (by decide) (by decide) (by rfl)⟩

/-! ## Helper lemmas about the pagination generator -/

lemma innerLoop_not_expired {α : Type} (fetch : Str → MC.PageResponse α)
    (ifuel : Nat) (r : MC.PageResponse α) (h : MC._has_token_expired r = false) :
    MC.innerLoop fetch ifuel r = ([], (some r, MC.GenResult.finished)) := by
  cases ifuel <;> simp [MC.innerLoop, h]

lemma not_expired_of_message {α : Type} (r : MC.PageResponse α)
    (h : r.message ≠ some notAuthorizedVal) : MC._has_token_expired r = false := by
  unfold MC._has_token_expired
  cases hr : r.message with
  | none => rfl
  | some m =>
    have : m ≠ notAuthorizedVal := fun he => h (by rw [hr, he])
    simpa using this

lemma outerLoop_stuck {α : Type} (fetch : Str → MC.PageResponse α)
    (r : MC.PageResponse α) (lks : List (Str × Str)) (its : List α)
    (hl : r.links = some lks) (hn : hasKeyStr lks nextKey = true)
    (he : MC._has_token_expired r = false) (hi : r.items = some its) :
    ∀ ifuel ofuel, MC.outerLoop fetch ifuel ofuel r
      = ((List.replicate ofuel (its.map MC.GEvent.yieldItem)).flatten,
         MC.GenResult.fuelOut) := by
  intro ifuel ofuel
  induction ofuel with
  | zero => simp [MC.outerLoop, hl, hn]
  | succ n ihn =>
    rw [MC.outerLoop, hl]
    simp only [hn, if_true, innerLoop_not_expired fetch ifuel r he, hi, ihn]
    rw [List.replicate_succ, List.flatten_cons]
    simp

lemma generator_stuck {α : Type} (fetch : Str → MC.PageResponse α) (object : Str)
    (lks : List (Str × Str)) (its : List α)
    (hl : (fetch (MC.customobjectEndpoint object 1)).links = some lks)
    (hn : hasKeyStr lks nextKey = true)
    (he : MC._has_token_expired (fetch (MC.customobjectEndpoint object 1)) = false)
    (hi : (fetch (MC.customobjectEndpoint object 1)).items = some its) :
    ∀ ifuel ofuel, MC.customobject_generator fetch object ifuel ofuel
      = (MC.GEvent.refresh :: MC.GEvent.fetch (MC.customobjectEndpoint object 1)
          :: MC.GEvent.yieldPage its
          :: (List.replicate ofuel (its.map MC.GEvent.yieldItem)).flatten,
         MC.GenResult.fuelOut) := by
  intro ifuel ofuel
  rw [MC.customobject_generator]
  simp only [hi, outerLoop_stuck fetch _ lks its hl hn he hi ifuel ofuel]

lemma generator_single_page {α : Type} (fetch : Str → MC.PageResponse α) (object : Str)
    (lks : List (Str × Str)) (its : List α)
    (hl : (fetch (MC.customobjectEndpoint object 1)).links = some lks)
    (hn : hasKeyStr lks nextKey = false)
    (hi : (fetch (MC.customobjectEndpoint object 1)).items = some its) :
    ∀ ifuel ofuel, MC.customobject_generator fetch object ifuel ofuel
      = ([MC.GEvent.refresh, MC.GEvent.fetch (MC.customobjectEndpoint object 1),
          MC.GEvent.yieldPage its],
         MC.GenResult.finished) := by
  intro ifuel ofuel
  rw [MC.customobject_generator]
  cases ofuel with
  | zero => simp [hi, MC.outerLoop, hl, hn]
  | succ n => simp [hi, MC.outerLoop, hl, hn]

lemma fetchCount_append {α : Type} (tr1 tr2 : List (MC.GEvent α)) :
    MC.fetchCount (tr1 ++ tr2) = MC.fetchCount tr1 + MC.fetchCount tr2 := by
  induction tr1 with
  | nil => simp [MC.fetchCount]
  | cons e tr ih => cases e <;> (simp [MC.fetchCount, ih]; try omega)

lemma fetchCount_yieldItems {α : Type} (l : List α) :
    MC.fetchCount (l.map MC.GEvent.yieldItem) = 0 := by
  induction l with
  | nil => rfl
  | cons a l ih => simp [MC.fetchCount, ih]

lemma fetchCount_flatten_replicate {α : Type} (n : Nat) (l : List α) :
    MC.fetchCount ((List.replicate n (l.map MC.GEvent.yieldItem)).flatten) = 0 := by
  induction n with
  | zero => rfl
  | succ m ih =>
    rw [List.replicate_succ, List.flatten_cons, fetchCount_append,
        fetchCount_yieldItems, ih]

/-! ## Claim C3: pagination never advances when the token has not expired -/

/-- C3: whenever the links mapping of the first-page response contains the key
`next` and its `message` field is absent or differs from `Not Authorized`,
the generator issues no HTTP fetch beyond the first page (exactly one fetch
event in the whole trace) and every outer-loop iteration re-yields the
items of the first page, for every loop bound — the run never reaches normal
termination. -/
theorem c3_generator_never_advances {α : Type} (fetch : Str → MC.PageResponse α)
    (object : Str) (lks : List (Str × Str)) (its : List α) (ifuel ofuel : Nat)
    (hl : (fetch (MC.customobjectEndpoint object 1)).links = some lks)
    (hn : hasKeyStr lks nextKey = true)
    (hm : (fetch (MC.customobjectEndpoint object 1)).message ≠ some notAuthorizedVal)
    (hi : (fetch (MC.customobjectEndpoint object 1)).items = some its) :
    MC.customobject_generator fetch object ifuel ofuel
      = (MC.GEvent.refresh :: MC.GEvent.fetch (MC.customobjectEndpoint object 1)
          :: MC.GEvent.yieldPage its
          :: (List.replicate ofuel (its.map MC.GEvent.yieldItem)).flatten,
         MC.GenResult.fuelOut)
    ∧ MC.fetchCount (MC.customobject_generator fetch object ifuel ofuel).1 = 1 := by
  have he := not_expired_of_message _ hm
  have hgen := generator_stuck fetch object lks its hl hn he hi ifuel ofuel
  refine ⟨hgen, ?_⟩
  rw [hgen]
  simp [MC.fetchCount, fetchCount_flatten_replicate]

/-- The first page of the mocked two-page rowset: two items, a `next`
link in `links`, no `message`. -/
def pageOne : MC.PageResponse Nat :=
  { items := some [0, 1]
    links := some [(nextKey, "https://mc.rest.example.com/page2".toList)]
    next := none
    message := none }

/-- The second page of the mocked two-page rowset: one item and no `next`
link. -/
def pageTwo : MC.PageResponse Nat :=
  { items := some [2], links := some [], next := none, message := none }

/-- A response with every key absent, returned for unexpected endpoints. -/
def respEmpty : MC.PageResponse Nat :=
  { items := none, links := none, next := none, message := none }

/-- The mocked two-page transport: page 1 of the rowset endpoint for
`myobj` answers `pageOne`, the `next` URL answers `pageTwo`. -/
def twoPageEnv (ep : Str) : MC.PageResponse Nat :=
  if ep = MC.customobjectEndpoint ("myobj".toList) 1 then pageOne
  else if ep = "https://mc.rest.example.com/page2".toList then pageTwo
  else respEmpty

/-- Closed instance of `c3_generator_never_advances` on the mocked
two-page transport. -/
theorem c3_generator_never_advances_witness :
    ((twoPageEnv (MC.customobjectEndpoint ("myobj".toList) 1)).links
        = some [(nextKey, "https://mc.rest.example.com/page2".toList)])
    ∧ (hasKeyStr [(nextKey, "https://mc.rest.example.com/page2".toList)] nextKey = true)
    ∧ ((twoPageEnv (MC.customobjectEndpoint ("myobj".toList) 1)).message
        ≠ some notAuthorizedVal)
    ∧ ((twoPageEnv (MC.customobjectEndpoint ("myobj".toList) 1)).items = some [0, 1])
    ∧ (MC.customobject_generator twoPageEnv ("myobj".toList) 1 2
        = (MC.GEvent.refresh :: MC.GEvent.fetch (MC.customobjectEndpoint ("myobj".toList) 1)
            :: MC.GEvent.yieldPage [0, 1]
            :: (List.replicate 2 ([0, 1].map MC.GEvent.yieldItem)).flatten,
           MC.GenResult.fuelOut)
      ∧ MC.fetchCount (MC.customobject_generator twoPageEnv ("myobj".toList) 1 2).1 = 1) :=
  ⟨by rfl, by rfl, by decide, by rfl,
   c3_generator_never_advances twoPageEnv ("myobj".toList)
     [(nextKey, "https://mc.rest.example.com/page2".toList)] [0, 1] 1 2
     (by rfl) (by rfl) (by decide) (by rfl)⟩

/-! ## Claim C1: behaviour on the mocked two-page rowset -/

/-- C1 (evaluation at the failing input): on the mocked two-page transport
the generator performs exactly one HTTP fetch for every loop bound (page 2
is never requested), never reaches normal termination, and its yields are
the item list of the first page as a single value followed by repetitions
of the individual items of the first page — not the three items of the two
pages. -/
theorem c1_two_page_mock_eval :
    MC.customobject_generator twoPageEnv ("myobj".toList) 1 2
      = ([MC.GEvent.refresh, MC.GEvent.fetch (MC.customobjectEndpoint ("myobj".toList) 1),
          MC.GEvent.yieldPage [0, 1], MC.GEvent.yieldItem 0, MC.GEvent.yieldItem 1,
          MC.GEvent.yieldItem 0, MC.GEvent.yieldItem 1],
         MC.GenResult.fuelOut)
    ∧ (∀ ofuel : Nat,
        (MC.customobject_generator twoPageEnv ("myobj".toList) 1 ofuel).2
          = MC.GenResult.fuelOut)
    ∧ (∀ ofuel : Nat,
        MC.fetchCount (MC.customobject_generator twoPageEnv ("myobj".toList) 1 ofuel).1 = 1)
    ∧ MC.yieldEvents (MC.customobject_generator twoPageEnv ("myobj".toList) 1 2).1
      = [MC.GEvent.yieldPage [0, 1], MC.GEvent.yieldItem 0, MC.GEvent.yieldItem 1,
         MC.GEvent.yieldItem 0, MC.GEvent.yieldItem 1] := by
  have hstuck := generator_stuck twoPageEnv ("myobj".toList)
    [(nextKey, "https://mc.rest.example.com/page2".toList)] [0, 1]
    (by rfl) (by rfl) (by rfl) (by rfl)
  refine ⟨by rfl, ?_, ?_, by rfl⟩
  · intro ofuel
    rw [hstuck 1 ofuel]
  · intro ofuel
    rw [hstuck 1 ofuel]
    simp only [MC.fetchCount, fetchCount_flatten_replicate]

/-! ## Claim C2: behaviour on a single-page rowset -/

/-- The single mocked page: two items and a `links` mapping without
`next`. -/
def singlePage : MC.PageResponse Nat :=
  { items := some [5, 7], links := some [], next := none, message := none }

/-- The mocked single-page transport. -/
def onePageEnv (ep : Str) : MC.PageResponse Nat :=
  if ep = MC.customobjectEndpoint ("myobj".toList) 1 then singlePage
  else respEmpty

/-- C2 (evaluation at the failing input): on a single-page response whose
`links` mapping has no `next` key, the generator terminates normally after
exactly one HTTP fetch for every loop bound, but its sole yield is the
item list `[5, 7]` of the page as one value — a single yield event rather than
one yield per item. -/
theorem c2_single_page_eval :
    (∀ ifuel ofuel : Nat,
        MC.customobject_generator onePageEnv ("myobj".toList) ifuel ofuel
          = ([MC.GEvent.refresh, MC.GEvent.fetch (MC.customobjectEndpoint ("myobj".toList) 1),
              MC.GEvent.yieldPage [5, 7]],
             MC.GenResult.finished))
    ∧ MC.fetchCount (MC.customobject_generator onePageEnv ("myobj".toList) 1 1).1 = 1
    ∧ MC.yieldEvents (MC.customobject_generator onePageEnv ("myobj".toList) 1 1).1
      = [MC.GEvent.yieldPage [5, 7]] := by
  refine ⟨?_, by rfl, by rfl⟩
  intro ifuel ofuel
  exact generator_single_page onePageEnv ("myobj".toList) [] [5, 7]
    (by rfl) (by rfl) (by rfl) ifuel ofuel


/-! ## Claim C4: a token refresh immediately precedes every page fetch -/

lemma stepOkAfter_refresh {α : Type} (p : Option (MC.GEvent α)) :
    MC.stepOkAfter MC.GEvent.refresh p = true := rfl

lemma stepOkAfter_yieldPage {α : Type} (l : List α) (p : Option (MC.GEvent α)) :
    MC.stepOkAfter (MC.GEvent.yieldPage l) p = true := rfl

lemma stepOkAfter_yieldItem {α : Type} (a : α) (p : Option (MC.GEvent α)) :
    MC.stepOkAfter (MC.GEvent.yieldItem a) p = true := rfl

lemma stepOkAfter_fetch_refresh {α : Type} (u : Str) :
    MC.stepOkAfter (MC.GEvent.fetch u) (some (MC.GEvent.refresh : MC.GEvent α)) = true := rfl

lemma fpr_append {α : Type} (prev : Option (MC.GEvent α))
    (xs ys : List (MC.GEvent α))
    (hx : MC.fetchPrecededByRefresh prev xs = true)
    (hy : ∀ p, MC.fetchPrecededByRefresh p ys = true) :
    MC.fetchPrecededByRefresh prev (xs ++ ys) = true := by
  induction xs generalizing prev with
  | nil => simpa using hy prev
  | cons e tr ih =>
    rw [List.cons_append]
    rw [MC.fetchPrecededByRefresh] at hx ⊢
    rw [Bool.and_eq_true] at hx ⊢
    exact ⟨hx.1, ih (some e) hx.2⟩

lemma fpr_yieldItems {α : Type} (p : Option (MC.GEvent α)) (l : List α) :
    MC.fetchPrecededByRefresh p (l.map MC.GEvent.yieldItem) = true := by
  induction l generalizing p with
  | nil => rfl
  | cons a l ih =>
    simp [MC.fetchPrecededByRefresh, stepOkAfter_yieldItem, ih]

lemma fpr_inner {α : Type} (fetch : Str → MC.PageResponse α) :
    ∀ (ifuel : Nat) (r : MC.PageResponse α) (p : Option (MC.GEvent α)),
    MC.fetchPrecededByRefresh p (MC.innerLoop fetch ifuel r).1 = true := by
  intro ifuel
  induction ifuel with
  | zero =>
    intro r p
    by_cases h : MC._has_token_expired r <;>
      simp [MC.innerLoop, h, MC.fetchPrecededByRefresh]
  | succ n ih =>
    intro r p
    by_cases h : MC._has_token_expired r
    · cases hx : r.next with
      | none =>
        simp [MC.innerLoop, h, hx, MC.fetchPrecededByRefresh, stepOkAfter_refresh]
      | some u =>
        simp [MC.innerLoop, h, hx, MC.fetchPrecededByRefresh, stepOkAfter_refresh,
              stepOkAfter_fetch_refresh, ih (fetch u) (some (MC.GEvent.fetch u))]
    · simp [MC.innerLoop, h, MC.fetchPrecededByRefresh]

lemma fpr_outer {α : Type} (fetch : Str → MC.PageResponse α) (ifuel : Nat) :
    ∀ (ofuel : Nat) (r : MC.PageResponse α) (p : Option (MC.GEvent α)),
    MC.fetchPrecededByRefresh p (MC.outerLoop fetch ifuel ofuel r).1 = true := by
  intro ofuel
  induction ofuel with
  | zero =>
    intro r p
    cases hl : r.links with
    | none => simp [MC.outerLoop, hl, MC.fetchPrecededByRefresh]
    | some lks =>
      by_cases hn : hasKeyStr lks nextKey <;>
        simp [MC.outerLoop, hl, hn, MC.fetchPrecededByRefresh]
  | succ n ih =>
    intro r p
    cases hl : r.links with
    | none => simp [MC.outerLoop, hl, MC.fetchPrecededByRefresh]
    | some lks =>
      by_cases hn : hasKeyStr lks nextKey
      · rw [MC.outerLoop, hl]
        simp only [hn, if_true]
        rcases hLoop : MC.innerLoop fetch ifuel r with ⟨tr1, o, res⟩
        have hfpr1 : ∀ q, MC.fetchPrecededByRefresh q tr1 = true := by
          intro q
          have hq := fpr_inner fetch ifuel r q
          rw [hLoop] at hq
          exact hq
        cases o with
        | none => simpa using hfpr1 p
        | some r2 =>
          cases hi : r2.items with
          | none => simp only [hi]; exact hfpr1 p
          | some its =>
            simp only [hi]
            exact fpr_append p (tr1 ++ its.map MC.GEvent.yieldItem)
              (MC.outerLoop fetch ifuel n r2).1
              (fpr_append p tr1 (its.map MC.GEvent.yieldItem) (hfpr1 p)
                (fun q => fpr_yieldItems q its))
              (fun q => ih r2 q)
      · simp [MC.outerLoop, hl, hn, MC.fetchPrecededByRefresh]

/-- C4: in every run of the generator — for every transport, object name
and loop bounds — every fetch event of the trace is immediately preceded
by a token-refresh event: each page GET the generator issues happens right
after a refresh of the token (the POST issued by `refresh_token`),
regardless of the content of any response. -/
theorem c4_refresh_precedes_every_fetch {α : Type}
    (fetch : Str → MC.PageResponse α) (object : Str) (ifuel ofuel : Nat) :
    MC.fetchPrecededByRefresh none
      (MC.customobject_generator fetch object ifuel ofuel).1 = true := by
  rw [MC.customobject_generator]
  cases hi : (fetch (MC.customobjectEndpoint object 1)).items with
  | none =>
    simp [MC.fetchPrecededByRefresh]
    exact ⟨rfl, rfl⟩
  | some its =>
    simp only [hi, MC.fetchPrecededByRefresh, Bool.and_eq_true,
               stepOkAfter_refresh, stepOkAfter_fetch_refresh, stepOkAfter_yieldPage,
               true_and]
    exact fpr_outer fetch ifuel ofuel _ (some (MC.GEvent.yieldPage its))
